import Mathlib

/-!
Verification of the comparison-series controller
(`src/frontend/src/features/comparisonSeries/ComparisonSeries.tsx`).

The controller drives a bounded series of pairwise comparisons: it owns a
step counter, a left/right refresh toggle, an alternatives pool, the pair
history and a dialog-visibility flag.  The two pure helpers it calls,
`alreadyComparedWith` and `selectRandomEntity`, are imported from
`src/utils/entity`, whose source is not part of this repository snapshot;
they are modelled here from the specification (sections 4.1 and 4.2).

Randomness is embedded by threading an explicit draw function
`rand : Nat -> Nat`: the sampler picks index `rand n % n` in a list of
length `n`, so every run is deterministic given the draw function, matching
the spec's "deterministic given a fixed random source".
-/

namespace ComparisonSeries

/-- An entity, identified by its `uid` (metadata is irrelevant to the
controller and omitted). -/
structure Entity where
  uid : String
  deriving Repr, DecidableEq

/-- Dialog content configured for a given step. -/
structure DialogContent where
  title : String
  messages : List String
  deriving Repr, DecidableEq

/-- The configuration handed to `ComparisonSeries` as props: the optional
dialog map (keyed by step number) and the series length.
`getAlternatives` is represented separately as a fetch outcome. -/
structure SeriesConfig where
  dialogs : Option (List (Nat × DialogContent))
  length : Nat
  deriving Repr, DecidableEq

/-- `dialogs && newStep in dialogs`: whether a dialog is configured for the
given step (false when the `dialogs` prop is absent). -/
def dialogConfigured (dialogs : Option (List (Nat × DialogContent))) (step : Nat) : Bool :=
  match dialogs with
  | none => false
  | some ds => (ds.lookup step).isSome

/-- `MIN_LENGTH = 2`: below this the stepper/dialog machinery is bypassed. -/
def MIN_LENGTH : Nat := 2

/-- The controller's React state: `step`, `dialogOpen`, `refreshLeft`,
`alternatives`, `comparisonsMade` (each a `useState` in the source).
History entries are canonical string keys `uidA ++ "/" ++ uidB`. -/
structure SeriesState where
  step : Nat
  dialogOpen : Bool
  refreshLeft : Bool
  alternatives : List Entity
  comparisonsMade : List String
  deriving Repr, DecidableEq

/-- The initial state: `useState(0)`, `useState(true)`, `useState(false)`,
`useState([])`, `useState([])` in source order. -/
def initialState : SeriesState :=
  { step := 0
    dialogOpen := true
    refreshLeft := false
    alternatives := []
    comparisonsMade := [] }

/-- Modelled from the spec: `alreadyComparedWith` from `src/utils/entity`
(not in this snapshot).  Per spec section 4.2 it scans the history and, for
every pair containing `uid`, adds the other member of the pair to the
result.  A history entry is the canonical key `a ++ "/" ++ b`; the two
members are recovered by splitting on `"/"`. -/
def alreadyComparedWith (uid : String) (history : List String) : List String :=
  history.foldr
    (fun c acc =>
      let parts := c.splitOn "/"
      let a := parts.getD 0 ""
      let b := parts.getD 1 ""
      (if a = uid then [b] else []) ++ (if b = uid then [a] else []) ++ acc)
    []

/-- Modelled from the spec: `selectRandomEntity` from `src/utils/entity`
(not in this snapshot).  Per spec section 4.1: keep the subset of `pool`
whose uid is not excluded; if that subset is empty fall back to the full
`pool`; fail with an empty-pool error only when `pool` itself is empty;
otherwise draw an element of the candidate list (index `rand n % n`). -/
def selectRandomEntity (pool : List Entity) (excluded : List String)
    (rand : Nat → Nat) : Except String Entity :=
  if pool.length = 0 then
    .error "EmptyPoolError"
  else
    let eligible := pool.filter (fun e => ! excluded.contains e.uid)
    let src := if eligible.isEmpty then pool else eligible
    match src.get? (rand src.length % src.length) with
    | some e => .ok e
    | none => .error "EmptyPoolError"

/-- The value returned to the comparison widget by the submission handler. -/
structure SubmitResult where
  uid : String
  refreshLeft : Bool
  deriving Repr, DecidableEq

/-- `afterSubmitCallback` (ComparisonSeries.tsx lines 63-95), as a state
transformer.  An `Except` result records a sampler exception propagating
out of the handler (the TS code has no try/catch around
`selectRandomEntity`). -/
def afterSubmitCallback (cfg : SeriesConfig) (rand : Nat → Nat)
    (s : SeriesState) (uidA uidB : String) :
    Except String (SeriesState × SubmitResult) := do
  let newStep := s.step + 1
  let step' := if s.step < cfg.length then newStep else s.step
  let newComparisons := s.comparisonsMade ++ [uidA ++ "/" ++ uidB]
  let keptUid := if s.refreshLeft then uidB else uidA
  let alreadyCompared := alreadyComparedWith keptUid newComparisons
  let uid ←
    if s.alternatives.length > 0 then do
      let e ← selectRandomEntity s.alternatives (alreadyCompared ++ [keptUid]) rand
      pure e.uid
    else
      pure ""
  let nextStep : SubmitResult := { uid := uid, refreshLeft := s.refreshLeft }
  let dialogOpen' := if dialogConfigured cfg.dialogs newStep then true else s.dialogOpen
  pure
    ({ step := step'
       dialogOpen := dialogOpen'
       refreshLeft := !s.refreshLeft
       alternatives := s.alternatives
       comparisonsMade := newComparisons },
     nextStep)

/-- `closeDialog` (lines 97-99): sets `dialogOpen` to `false`. -/
def closeDialog (s : SeriesState) : SeriesState :=
  { s with dialogOpen := false }

/-- One submission event: the two compared uids and the random draw used by
the sampler for this call. -/
structure SubmitIn where
  uidA : String
  uidB : String
  rand : Nat → Nat

/-- Run a sequence of submissions.  A sampler exception aborts the run,
leaving the state as it was before the failing call. -/
def runSubmits (cfg : SeriesConfig) (s : SeriesState) : List SubmitIn → SeriesState
  | [] => s
  | i :: rest =>
    match afterSubmitCallback cfg i.rand s i.uidA i.uidB with
    | .ok (s', _) => runSubmits cfg s' rest
    | .error _ => s

/-- Run a sequence of submissions, also collecting each call's returned
`SubmitResult`. -/
def runSubmitsOut (cfg : SeriesConfig) (s : SeriesState) :
    List SubmitIn → SeriesState × List SubmitResult
  | [] => (s, [])
  | i :: rest =>
    match afterSubmitCallback cfg i.rand s i.uidA i.uidB with
    | .ok (s', r) =>
      ((runSubmitsOut cfg s' rest).1, r :: (runSubmitsOut cfg s' rest).2)
    | .error _ => (s, [])

/-- The possible outcomes of the alternatives fetch effect: the
`getAlternatives` prop is absent, the promise rejects, or it resolves with
a list. -/
inductive FetchOutcome where
  | noProvider
  | rejected
  | resolved (alts : List Entity)
  deriving Repr, DecidableEq

/-- `getAlternativesAsync` (lines 50-61): when a provider exists and its
promise resolves to a non-empty list, store it; otherwise (absent provider,
rejection, or empty result) the state is untouched. -/
def getAlternativesAsync (outcome : FetchOutcome) (s : SeriesState) : SeriesState :=
  match outcome with
  | .noProvider => s
  | .rejected => s
  | .resolved alts => if alts.length > 0 then { s with alternatives := alts } else s

/-- What the component renders (lines 101-123): the managed branch shows
the optional dialog box (content plus open flag), the stepper at the
current step with `length` steps, and a `Comparison` wired to
`afterSubmitCallback`; the degraded branch is a bare `Comparison` with no
submission handler. -/
inductive RenderTree where
  | managed (dialogBox : Option (DialogContent × Bool)) (activeStep : Nat)
      (stepCount : Nat)
  | unmanaged
  deriving Repr, DecidableEq

/-- The dialog box as mounted by the component: present only when `dialogs`
exists and has an entry for the current step, carrying the `dialogOpen`
flag as its `open` prop. -/
def dialogBoxView (dialogs : Option (List (Nat × DialogContent))) (step : Nat)
    (dialogOpen : Bool) : Option (DialogContent × Bool) :=
  match dialogs with
  | none => none
  | some ds =>
    match ds.lookup step with
    | some d => some (d, dialogOpen)
    | none => none

/-- The component's render function: managed machinery iff
`length >= MIN_LENGTH`; the dialog box is mounted only when a dialog is
configured for the current step. -/
def render (cfg : SeriesConfig) (s : SeriesState) : RenderTree :=
  if cfg.length ≥ MIN_LENGTH then
    .managed (dialogBoxView cfg.dialogs s.step s.dialogOpen) s.step cfg.length
  else
    .unmanaged

/-! ### Helper lemmas -/

/-- The sampler's candidate list (the eligible subset, or the whole pool
as fallback) is non-empty whenever the pool is. -/
theorem sampler_src_length_pos (pool : List Entity) (excl : List String)
    (h : pool ≠ []) :
    0 < (if (pool.filter fun e => ! excl.contains e.uid).isEmpty = true then pool
         else pool.filter fun e => ! excl.contains e.uid).length := by
  split
  · exact List.length_pos.mpr h
  · rename_i hel
    refine List.length_pos.mpr fun h0 => hel ?_
    rw [h0]
    rfl

/-- On a non-empty pool the sampler always produces an entity. -/
theorem selectRandomEntity_isOk (pool : List Entity) (excl : List String)
    (rand : Nat → Nat) (h : pool ≠ []) :
    ∃ e, selectRandomEntity pool excl rand = .ok e := by
  have hpos := sampler_src_length_pos pool excl h
  have hlen : ¬ pool.length = 0 := Nat.pos_iff_ne_zero.mp (List.length_pos.mpr h)
  simp only [selectRandomEntity, if_neg hlen]
  rw [List.get?_eq_get (Nat.mod_lt _ hpos)]
  exact ⟨_, rfl⟩

/-- When the exclusion set covers the whole pool, the sampler draws from
the full pool. -/
theorem selectRandomEntity_fallback_full (pool : List Entity) (excl : List String)
    (rand : Nat → Nat) (h : pool ≠ [])
    (hall : ∀ e ∈ pool, excl.contains e.uid) :
    ∃ i : Fin pool.length, selectRandomEntity pool excl rand = .ok (pool.get i) := by
  have hfil : pool.filter (fun e => ! excl.contains e.uid) = [] := by
    rw [List.filter_eq_nil_iff]
    intro a ha
    simpa using hall a ha
  have hpos : 0 < pool.length := List.length_pos.mpr h
  have hlen : ¬ pool.length = 0 := Nat.pos_iff_ne_zero.mp hpos
  refine ⟨⟨rand pool.length % pool.length, Nat.mod_lt _ hpos⟩, ?_⟩
  simp only [selectRandomEntity, if_neg hlen, hfil, List.isEmpty_nil, if_true]
  rw [List.get?_eq_get (Nat.mod_lt _ hpos)]

/-- Characterization of the submission handler: it always succeeds, the
resulting state's fields are as computed in the source, and the returned
uid is empty for an empty pool and otherwise the sampler's choice under
the kept-entity exclusion set. -/
theorem afterSubmit_eq (cfg : SeriesConfig) (rand : Nat → Nat) (s : SeriesState)
    (uidA uidB : String) :
    ∃ uid, afterSubmitCallback cfg rand s uidA uidB =
      .ok ({ step := if s.step < cfg.length then s.step + 1 else s.step
             dialogOpen := if dialogConfigured cfg.dialogs (s.step + 1) then true else s.dialogOpen
             refreshLeft := !s.refreshLeft
             alternatives := s.alternatives
             comparisonsMade := s.comparisonsMade ++ [uidA ++ "/" ++ uidB] },
           { uid := uid, refreshLeft := s.refreshLeft }) ∧
      ((s.alternatives = [] ∧ uid = "") ∨
       (s.alternatives ≠ [] ∧
        selectRandomEntity s.alternatives
          (alreadyComparedWith (if s.refreshLeft then uidB else uidA)
             (s.comparisonsMade ++ [uidA ++ "/" ++ uidB]) ++
           [if s.refreshLeft then uidB else uidA]) rand = Except.ok ⟨uid⟩)) := by
  by_cases halt : s.alternatives = []
  · refine ⟨"", ?_, Or.inl ⟨halt, rfl⟩⟩
    simp [afterSubmitCallback, halt]
    rfl
  · obtain ⟨e, he⟩ := selectRandomEntity_isOk s.alternatives
      (alreadyComparedWith (if s.refreshLeft then uidB else uidA)
         (s.comparisonsMade ++ [uidA ++ "/" ++ uidB]) ++
       [if s.refreshLeft then uidB else uidA]) rand halt
    have hlen : 0 < s.alternatives.length := List.length_pos.mpr halt
    refine ⟨e.uid, ?_, Or.inr ⟨halt, ?_⟩⟩
    · simp [afterSubmitCallback, hlen, he]
    · rw [he]

/-- Field-wise corollary of `afterSubmit_eq`: the handler succeeds and each
field of the new state, and the returned value, are characterized. -/
theorem afterSubmit_fields (cfg : SeriesConfig) (rand : Nat → Nat) (s : SeriesState)
    (uidA uidB : String) :
    ∃ s' r, afterSubmitCallback cfg rand s uidA uidB = .ok (s', r) ∧
      s'.step = (if s.step < cfg.length then s.step + 1 else s.step) ∧
      s'.dialogOpen =
        (if dialogConfigured cfg.dialogs (s.step + 1) = true then true else s.dialogOpen) ∧
      s'.refreshLeft = !s.refreshLeft ∧
      s'.alternatives = s.alternatives ∧
      s'.comparisonsMade = s.comparisonsMade ++ [uidA ++ "/" ++ uidB] ∧
      r.refreshLeft = s.refreshLeft ∧
      ((s.alternatives = [] ∧ r.uid = "") ∨
       (s.alternatives ≠ [] ∧
        selectRandomEntity s.alternatives
          (alreadyComparedWith (if s.refreshLeft then uidB else uidA)
             (s.comparisonsMade ++ [uidA ++ "/" ++ uidB]) ++
           [if s.refreshLeft then uidB else uidA]) rand = Except.ok ⟨r.uid⟩)) := by
  obtain ⟨uid, heq, hcase⟩ := afterSubmit_eq cfg rand s uidA uidB
  exact ⟨_, _, heq, rfl, rfl, rfl, rfl, rfl, rfl, hcase⟩

/-- Unfolding `runSubmits` over a successful submission. -/
theorem runSubmits_cons_ok (cfg : SeriesConfig) (i : SubmitIn) (rest : List SubmitIn)
    (s s' : SeriesState) (r : SubmitResult)
    (heq : afterSubmitCallback cfg i.rand s i.uidA i.uidB = .ok (s', r)) :
    runSubmits cfg s (i :: rest) = runSubmits cfg s' rest := by
  simp only [runSubmits]
  rw [heq]

/-- Unfolding `runSubmitsOut` over a successful submission. -/
theorem runSubmitsOut_cons_ok (cfg : SeriesConfig) (i : SubmitIn) (rest : List SubmitIn)
    (s s' : SeriesState) (r : SubmitResult)
    (heq : afterSubmitCallback cfg i.rand s i.uidA i.uidB = .ok (s', r)) :
    runSubmitsOut cfg s (i :: rest) =
      ((runSubmitsOut cfg s' rest).1, r :: (runSubmitsOut cfg s' rest).2) := by
  simp only [runSubmitsOut]
  rw [heq]

/-- The step counter stays within the configured length along any run. -/
theorem runSubmits_step_le (cfg : SeriesConfig) (subs : List SubmitIn) (s : SeriesState)
    (h : s.step ≤ cfg.length) : (runSubmits cfg s subs).step ≤ cfg.length := by
  induction subs generalizing s with
  | nil => exact h
  | cons i rest ih =>
    obtain ⟨s', r, heq, hstep, -, -, -, -, -, -⟩ :=
      afterSubmit_fields cfg i.rand s i.uidA i.uidB
    rw [runSubmits_cons_ok cfg i rest s _ _ heq]
    apply ih
    rw [hstep]
    split <;> omega

/-- `refreshLeft` after a run is its initial value xor the parity of the
number of submissions. -/
theorem runSubmits_refreshLeft (cfg : SeriesConfig) (subs : List SubmitIn)
    (s : SeriesState) :
    (runSubmits cfg s subs).refreshLeft =
      xor s.refreshLeft (decide (subs.length % 2 = 1)) := by
  induction subs generalizing s with
  | nil => simp [runSubmits]
  | cons i rest ih =>
    obtain ⟨s', r, heq, -, -, hrl, -, -, -, -⟩ :=
      afterSubmit_fields cfg i.rand s i.uidA i.uidB
    rw [runSubmits_cons_ok cfg i rest s _ _ heq, ih, hrl]
    rcases Nat.mod_two_eq_zero_or_one rest.length with hp | hp
    · have h1 : (rest.length + 1) % 2 = 1 := by omega
      cases s.refreshLeft <;> simp [hp, h1]
    · have h1 : (rest.length + 1) % 2 = 0 := by omega
      cases s.refreshLeft <;> simp [hp, h1]

/-- Starting from an empty alternatives pool, the pool stays empty and
every submission's returned uid is the empty sentinel. -/
theorem runSubmitsOut_empty_alts (cfg : SeriesConfig) (subs : List SubmitIn)
    (s : SeriesState) (h : s.alternatives = []) :
    (runSubmitsOut cfg s subs).1.alternatives = [] ∧
    ∀ r ∈ (runSubmitsOut cfg s subs).2, r.uid = "" := by
  induction subs generalizing s with
  | nil =>
    refine ⟨h, ?_⟩
    intro r hr
    simp [runSubmitsOut] at hr
  | cons i rest ih =>
    obtain ⟨s', r, heq, -, -, -, halts, -, -, hcase⟩ :=
      afterSubmit_fields cfg i.rand s i.uidA i.uidB
    have huid : r.uid = "" := by
      rcases hcase with ⟨-, h2⟩ | ⟨hne, -⟩
      · exact h2
      · exact absurd h hne
    have h' : s'.alternatives = [] := halts.trans h
    rw [runSubmitsOut_cons_ok cfg i rest s _ _ heq]
    refine ⟨(ih s' h').1, ?_⟩
    intro r2 hr
    rcases List.mem_cons.mp hr with hr | hr
    · rw [hr]
      exact huid
    · exact (ih s' h').2 r2 hr

/-! ### Claim theorems -/

/-- C1: every Submit(uidA, uidB) keeps `keptUid = refreshLeft ? uidB : uidA`,
builds the exclusion set `alreadyComparedWith keptUid (history ++ [new pair])`
plus `keptUid` itself, samples a replacement with that exclusion set only
when the alternatives pool is non-empty, and returns the replacement uid (or
the empty string) together with the value `refreshLeft` had at call time
(before toggling). -/
theorem submit_contract (cfg : SeriesConfig) (rand : Nat → Nat) (s : SeriesState)
    (uidA uidB : String) :
    ∃ s' r, afterSubmitCallback cfg rand s uidA uidB = .ok (s', r) ∧
      r.refreshLeft = s.refreshLeft ∧
      s'.refreshLeft = !s.refreshLeft ∧
      (s.alternatives = [] → r.uid = "") ∧
      (s.alternatives ≠ [] →
        ∃ e, selectRandomEntity s.alternatives
            (alreadyComparedWith (if s.refreshLeft then uidB else uidA)
               (s.comparisonsMade ++ [uidA ++ "/" ++ uidB]) ++
             [if s.refreshLeft then uidB else uidA]) rand = .ok e ∧
          r.uid = e.uid) := by
  obtain ⟨s', r, heq, -, -, hrl, -, -, hrres, hcase⟩ :=
    afterSubmit_fields cfg rand s uidA uidB
  refine ⟨s', r, heq, hrres, hrl, fun he => ?_, fun hne => ?_⟩
  · rcases hcase with ⟨-, h2⟩ | ⟨hne, -⟩
    · exact h2
    · exact absurd he hne
  · rcases hcase with ⟨he, -⟩ | ⟨-, h2⟩
    · exact absurd he hne
    · exact ⟨⟨r.uid⟩, h2, rfl⟩

/-- C2: along any run from the initial state the step counter never exceeds
the configured length; a single Submit advances the step by one exactly when
`step < length`, leaves it unchanged otherwise, and in either case appends
the new pair to the history and still computes a replacement uid from a
non-empty pool. -/
theorem step_bound_and_overrun_policy (cfg : SeriesConfig) (subs : List SubmitIn)
    (rand : Nat → Nat) (s : SeriesState) (uidA uidB : String) :
    (runSubmits cfg initialState subs).step ≤ cfg.length ∧
    (∃ s' r, afterSubmitCallback cfg rand s uidA uidB = .ok (s', r) ∧
      (s.step < cfg.length → s'.step = s.step + 1) ∧
      (cfg.length ≤ s.step → s'.step = s.step) ∧
      s'.comparisonsMade = s.comparisonsMade ++ [uidA ++ "/" ++ uidB] ∧
      (s.alternatives ≠ [] →
        ∃ e, selectRandomEntity s.alternatives
            (alreadyComparedWith (if s.refreshLeft then uidB else uidA)
               (s.comparisonsMade ++ [uidA ++ "/" ++ uidB]) ++
             [if s.refreshLeft then uidB else uidA]) rand = .ok e ∧
          r.uid = e.uid)) := by
  refine ⟨runSubmits_step_le cfg subs initialState (Nat.zero_le _), ?_⟩
  obtain ⟨s', r, heq, hstep, -, -, -, hcomp, -, hcase⟩ :=
    afterSubmit_fields cfg rand s uidA uidB
  refine ⟨s', r, heq, fun hlt => ?_, fun hge => ?_, hcomp, fun hne => ?_⟩
  · rw [hstep, if_pos hlt]
  · rw [hstep, if_neg (Nat.not_lt.mpr hge)]
  · rcases hcase with ⟨he, -⟩ | ⟨-, h2⟩
    · exact absurd he hne
    · exact ⟨⟨r.uid⟩, h2, rfl⟩

/-- C3: `refreshLeft` starts `false` and is negated by every processed
Submit, so after `n` submissions (for every `n`, including runs past the
configured length) it equals the parity of `n`. -/
theorem refreshLeft_parity (cfg : SeriesConfig) (subs : List SubmitIn)
    (rand : Nat → Nat) (s : SeriesState) (uidA uidB : String) :
    initialState.refreshLeft = false ∧
    (∃ s' r, afterSubmitCallback cfg rand s uidA uidB = .ok (s', r) ∧
      s'.refreshLeft = !s.refreshLeft) ∧
    (runSubmits cfg initialState subs).refreshLeft = decide (subs.length % 2 = 1) := by
  refine ⟨rfl, ?_, ?_⟩
  · obtain ⟨s', r, heq, -, -, hrl, -, -, -, -⟩ :=
      afterSubmit_fields cfg rand s uidA uidB
    exact ⟨s', r, heq, hrl⟩
  · rw [runSubmits_refreshLeft]
    simp [initialState]

/-- C4: with an empty alternatives pool a Submit returns the empty-string
sentinel, and the handler never fails (in particular the sampler's
empty-pool error is never raised, the pool being checked before sampling). -/
theorem empty_pool_never_samples (cfg : SeriesConfig) (rand : Nat → Nat)
    (s : SeriesState) (uidA uidB : String) :
    (∃ out, afterSubmitCallback cfg rand s uidA uidB = .ok out) ∧
    (s.alternatives = [] →
      ∃ s', afterSubmitCallback cfg rand s uidA uidB =
        .ok (s', { uid := "", refreshLeft := s.refreshLeft })) := by
  obtain ⟨uid, heq, hcase⟩ := afterSubmit_eq cfg rand s uidA uidB
  refine ⟨⟨_, heq⟩, fun he => ?_⟩
  have huid : uid = "" := by
    rcases hcase with ⟨-, h2⟩ | ⟨hne, -⟩
    · exact h2
    · exact absurd he hne
  rw [huid] at heq
  exact ⟨_, heq⟩

/-- C5: for every non-empty pool and every exclusion set the sampler
returns some entity, and when the exclusion set covers the whole pool it
falls back to drawing from the full pool instead of failing. -/
theorem sampler_total_with_fallback (pool : List Entity) (excl : List String)
    (rand : Nat → Nat) (h : pool ≠ []) :
    (∃ e, selectRandomEntity pool excl rand = .ok e) ∧
    ((∀ e ∈ pool, excl.contains e.uid) →
      ∃ i : Fin pool.length, selectRandomEntity pool excl rand = .ok (pool.get i)) :=
  ⟨selectRandomEntity_isOk pool excl rand h,
   fun hall => selectRandomEntity_fallback_full pool excl rand h hall⟩

/-- C5 witness: a 2-entity pool with both entities excluded still yields an
entity, drawn from the full pool. -/
theorem sampler_total_with_fallback_witness :
    (∃ e, selectRandomEntity [⟨"a"⟩, ⟨"b"⟩] ["a", "b"] (fun _ => 1) = .ok e) ∧
    ((∀ e ∈ [(⟨"a"⟩ : Entity), ⟨"b"⟩], ["a", "b"].contains e.uid) →
      ∃ i : Fin ([(⟨"a"⟩ : Entity), ⟨"b"⟩]).length,
        selectRandomEntity [⟨"a"⟩, ⟨"b"⟩] ["a", "b"] (fun _ => 1) =
          .ok ([(⟨"a"⟩ : Entity), ⟨"b"⟩].get i)) :=
  sampler_total_with_fallback [⟨"a"⟩, ⟨"b"⟩] ["a", "b"] (fun _ => 1) (by decide)

/-- C6: a Submit sets `dialogOpen` to `true` exactly when a dialog is
configured for the new step number `step + 1`, and leaves it unchanged
otherwise; hence after `closeDialog`, a Submit towards an unconfigured step
leaves `dialogOpen` at `false`. -/
theorem dialog_open_policy (cfg : SeriesConfig) (rand rand2 : Nat → Nat)
    (s : SeriesState) (uidA uidB uidC uidD : String) :
    (∃ s' r, afterSubmitCallback cfg rand s uidA uidB = .ok (s', r) ∧
      (dialogConfigured cfg.dialogs (s.step + 1) = true → s'.dialogOpen = true) ∧
      (dialogConfigured cfg.dialogs (s.step + 1) = false → s'.dialogOpen = s.dialogOpen)) ∧
    (dialogConfigured cfg.dialogs (s.step + 1) = false →
      ∃ s' r, afterSubmitCallback cfg rand2 (closeDialog s) uidC uidD = .ok (s', r) ∧
        s'.dialogOpen = false) := by
  constructor
  · obtain ⟨s', r, heq, -, hdo, -, -, -, -, -⟩ :=
      afterSubmit_fields cfg rand s uidA uidB
    refine ⟨s', r, heq, fun hc => ?_, fun hc => ?_⟩
    · rw [hdo, if_pos hc]
    · rw [hdo, if_neg (by simp [hc])]
  · intro hc
    obtain ⟨s', r, heq, -, hdo, -, -, -, -, -⟩ :=
      afterSubmit_fields cfg rand2 (closeDialog s) uidC uidD
    refine ⟨s', r, heq, ?_⟩
    rw [hdo]
    have hstep : (closeDialog s).step = s.step := rfl
    rw [hstep, if_neg (by simp [hc])]
    rfl

/-- C7 counterexample: the claimed iff fails — with no dialog configured
for step 0 (`dialogs` prop absent) the initial state still has
`dialogOpen = true`, since the source initializes it with `useState(true)`
unconditionally. -/
theorem initial_dialogOpen_cex :
    ¬ (initialState.dialogOpen = true ↔ dialogConfigured none 0 = true) := by
  decide

/-- C7 amended: at series start the state has `step = 0`, empty history,
`refreshLeft = false`, empty pool, and `dialogOpen = true` unconditionally;
a dialog box is mounted at start iff one is configured for step 0, because
rendering — not the flag — is gated on configuration. -/
theorem initial_state_start (cfg : SeriesConfig) :
    initialState.step = 0 ∧ initialState.comparisonsMade = [] ∧
    initialState.refreshLeft = false ∧ initialState.alternatives = [] ∧
    initialState.dialogOpen = true ∧
    (MIN_LENGTH ≤ cfg.length → dialogConfigured cfg.dialogs 0 = false →
      render cfg initialState = .managed none 0 cfg.length) ∧
    (MIN_LENGTH ≤ cfg.length → ∀ ds, cfg.dialogs = some ds → ∀ c, ds.lookup 0 = some c →
      render cfg initialState = .managed (some (c, true)) 0 cfg.length) := by
  refine ⟨rfl, rfl, rfl, rfl, rfl, ?_, ?_⟩
  · intro hlen hconf
    simp only [render, if_pos hlen]
    cases hd : cfg.dialogs with
    | none => rfl
    | some ds =>
      rw [hd] at hconf
      simp only [dialogConfigured] at hconf
      cases hl : ds.lookup 0 with
      | none =>
        have hl' : ds.lookup initialState.step = none := hl
        simp only [dialogBoxView, hl']
        rfl
      | some d =>
        rw [hl] at hconf
        simp at hconf
  · intro hlen ds hd c hc
    simp only [render, if_pos hlen, hd]
    have hc' : ds.lookup initialState.step = some c := hc
    simp only [dialogBoxView, hc']
    rfl

/-- C8: the alternatives fetch stores its result only when it resolves to a
non-empty list; on an empty result or a rejection the state is untouched
(no error surfaced), and with the pool still empty every subsequent Submit
returns the empty sentinel while the pool stays empty. -/
theorem fetch_store_policy (cfg : SeriesConfig) (s : SeriesState)
    (alts : List Entity) (subs : List SubmitIn) :
    getAlternativesAsync .rejected s = s ∧
    getAlternativesAsync (.resolved []) s = s ∧
    (alts ≠ [] → (getAlternativesAsync (.resolved alts) s).alternatives = alts) ∧
    (s.alternatives = [] →
      (runSubmitsOut cfg s subs).1.alternatives = [] ∧
      ∀ r ∈ (runSubmitsOut cfg s subs).2, r.uid = "") := by
  refine ⟨rfl, rfl, fun h => ?_, fun h => runSubmitsOut_empty_alts cfg subs s h⟩
  simp [getAlternativesAsync, List.length_pos.mpr h]

/-- C9: a configured length below `MIN_LENGTH` (2) bypasses the
stepper/dialog machinery entirely: the component renders a single
comparison with no submission handler attached (the `unmanaged` branch
carries no `afterSubmitCallback`), so no step counting, history recording
or substitution logic is reachable. -/
theorem short_series_bypass (cfg : SeriesConfig) (s : SeriesState)
    (h : cfg.length < MIN_LENGTH) : render cfg s = .unmanaged := by
  simp only [render]
  rw [if_neg (Nat.not_le.mpr h)]

/-- C9 witness: a length-1 series renders the unmanaged comparison. -/
theorem short_series_bypass_witness :
    render { dialogs := none, length := 1 } initialState = RenderTree.unmanaged :=
  short_series_bypass { dialogs := none, length := 1 } initialState (by decide)

/-- C10: when the `getAlternatives` prop is absent, the fetch effect leaves
the state untouched, the pool stays empty for the entire series, and every
Submit returns the empty-string sentinel — the same degraded mode as a
failed or empty fetch. -/
theorem no_provider_degraded (cfg : SeriesConfig) (subs : List SubmitIn) :
    getAlternativesAsync .noProvider initialState = initialState ∧
    (runSubmitsOut cfg (getAlternativesAsync .noProvider initialState) subs).1.alternatives
      = [] ∧
    ∀ r ∈ (runSubmitsOut cfg (getAlternativesAsync .noProvider initialState) subs).2,
      r.uid = "" :=
  ⟨rfl,
   (runSubmitsOut_empty_alts cfg subs _ rfl).1,
   (runSubmitsOut_empty_alts cfg subs _ rfl).2⟩

end ComparisonSeries
